import Mathlib

/-!
Verification development for the LR(1) parser generator and step-execution
engine (backend/parser of the lr1-visualizer repository).

The Python sources are shallowly embedded:
  * `types.py`    — Symbol, Production, ActionType, ParsingAction, ParsingStep, ASTNode
  * `grammar.py` / `grammar_v2.py` — Grammar, augmentation, FIRST computation
  * `items.py`    — LR1Item, item-set closure and goto
  * `automaton.py`— canonical collection (worklist construction)
  * `table.py`    — ACTION/GOTO synthesis with conflict recording
  * `engine.py`   — shift-reduce driver, trace emission, AST assembly

Python dicts are modelled as insertion-ordered association lists, Python sets
as duplicate-free lists (membership is what matters), machine integers as
`Nat`, fallible indexing as `Except`/`Option`.  Loops whose termination the
Python source does not bound structurally (fixed-point loops) take an explicit
fuel argument; concrete evaluations instantiate the fuel generously.
-/

set_option maxRecDepth 40000
set_option maxHeartbeats 4000000

namespace LRViz

/-- Kinds of grammar symbols (types.py `SymbolType`). -/
inductive SymbolType where
  | terminal
  | nonTerminal
  | epsilon
deriving DecidableEq

/-- A grammar symbol (types.py `Symbol`): a name plus a kind; equality and
hashing are by (name, kind). -/
structure Symbol where
  name : String
  kind : SymbolType
deriving DecidableEq

/-- A production rule (types.py `Production`): lhs non-terminal and a
sequence of rhs symbols (empty list encodes an ε production). -/
structure Production where
  lhs : Symbol
  rhs : List Symbol
deriving DecidableEq

/-- The grammar data (grammar.py / grammar_v2.py `Grammar`): an ordered
production list and the designated start symbol (after augmentation this is
the augmented start).  The terminal/non-terminal sets of the Python class are
derived from these two fields and are recomputed where needed. -/
structure Grammar where
  productions : List Production
  start_symbol : Symbol
deriving DecidableEq

/-- Productions whose lhs equals the given symbol, in list order
(`Grammar.get_productions_for_symbol`). -/
def getProductionsFor (g : Grammar) (s : Symbol) : List Production :=
  g.productions.filter (fun p => p.lhs == s)

/-- Does the non-terminal have a production with empty rhs
(`Grammar._has_epsilon_production`)? -/
def hasEpsilonProduction (g : Grammar) (s : Symbol) : Bool :=
  (getProductionsFor g s).any (fun p => p.rhs.isEmpty)

/-- The non-terminal symbols of the grammar as collected by
`Grammar.__init__`: the start symbol, every production lhs, and every rhs
symbol of non-terminal kind. -/
def nonTerminalsOf (g : Grammar) : List Symbol :=
  g.productions.foldl
    (fun acc p =>
      let acc := if acc.contains p.lhs then acc else acc ++ [p.lhs]
      p.rhs.foldl
        (fun acc s =>
          if s.kind == SymbolType.nonTerminal && !acc.contains s then acc ++ [s] else acc)
        acc)
    [g.start_symbol]

/-- The apostrophe character, used by the augmentation to build the name of
the augmented start symbol (`f"{start_symbol_name}'"`). -/
def apos : String := String.singleton (Char.ofNat 39)

/-- The epsilon symbol value `Symbol("ε", EPSILON)` used by the FIRST code. -/
def epsSymbol : Symbol := ⟨"ε", SymbolType.epsilon⟩

/-- The end-of-input marker `$`. -/
def dollar : String := "$"

/-- The end marker as a terminal symbol. -/
def dollarSym : Symbol := ⟨dollar, SymbolType.terminal⟩

/-- Grammar augmentation as performed by `Grammar.from_string`
(grammar.py lines 60–112) over an already-parsed production list (the
grammar-text front-end is out of scope per the spec; the structured list is
what the parsing loop of `from_string` accumulates): a symbol named
start-name + apostrophe is created — with no freshness check — the production
augmented → start is inserted at index 0, and the grammar's start symbol is
set to the augmented symbol. -/
def fromProductionList (userProds : List Production) (startName : String) : Grammar :=
  let startSym : Symbol := ⟨startName, SymbolType.nonTerminal⟩
  let augmentedStart : Symbol := ⟨startName ++ apos, SymbolType.nonTerminal⟩
  { productions := ⟨augmentedStart, [startSym]⟩ :: userProds
    start_symbol := augmentedStart }

/-- Parsing action kinds (types.py `ActionType`, a plain Python `Enum`). -/
inductive ActionTypeE where
  | shift
  | reduce
  | accept
  | error
deriving DecidableEq

/-- The `.value` string of each `ActionType` member. -/
def ActionTypeE.value : ActionTypeE → String
  | .shift => "shift"
  | .reduce => "reduce"
  | .accept => "accept"
  | .error => "error"

/-- A parsing action record (types.py `ParsingAction`).  The pydantic config
`use_enum_values = True` makes the stored `action_type` the enum's *value
string*, which is why the field is a `String` here; every construction site
goes through `mkParsingAction`, mirroring that conversion. -/
structure ParsingAction where
  action_type : String
  target : Option Nat
deriving DecidableEq

/-- Build a `ParsingAction` the way Python code does
(`ParsingAction(action_type=ActionType.X, target=t)`): pydantic stores the
enum's value string. -/
def mkParsingAction (t : ActionTypeE) (target : Option Nat) : ParsingAction :=
  ⟨t.value, target⟩

/-- Python equality between the stored `action_type` *string* and an
`ActionType` *enum member*, as in `validate_input`'s comparison
`last_step.action.action_type == ActionType.ACCEPT`.  A Python `str` never
equals a plain-`Enum` member (`str.__eq__` returns NotImplemented and
`Enum.__eq__` is identity), so this is constantly `false`. -/
def pyEqStrEnum (_s : String) (_e : ActionTypeE) : Bool := false

/-- Abstraction of the per-step explanation strings built by
`_execute_step` / `_parse_tokens`; each constructor stands for one of the
distinct format strings of the source. -/
inductive Explanation where
  | noAction
  | shiftExp
  | reduceExp
  | acceptExp
  | invalidExp
  | stepLimit
deriving DecidableEq

/-- An AST node snapshot (types.py `ASTNode`); the engine stores these in the
node map and also dumps them (via `model_dump`) into the step record at
creation time. -/
structure ASTNode where
  id : String
  symbol : String
  symbol_type : SymbolType
  children : List String
  parent : Option String
  production_used : Option Nat
deriving DecidableEq

/-- One step of the parsing trace (types.py `ParsingStep`).  Stack entries
are (state, symbol) pairs; the state component is `Option Nat` because Python
would push `action.target` even when it is `None`. -/
structure ParsingStep where
  step_number : Nat
  stack : List (Option Nat × String)
  input_pointer : Nat
  current_token : Option String
  action : ParsingAction
  explanation : Explanation
  ast_nodes : List ASTNode
deriving DecidableEq

/-- The mutable parser state (engine.py `ParseState`). -/
structure ParseState where
  stack : List (Option Nat × String)
  input_tokens : List String
  input_pointer : Nat
  step_number : Nat
  ast_nodes : List (String × ASTNode)
  ast_stack : List String
  next_node_id : Nat
deriving DecidableEq

/-- Conflict record (types.py `ConflictInfo`). -/
structure ConflictInfo where
  state : Nat
  symbol : String
  actions : List ParsingAction
  conflict_type : String
deriving DecidableEq

/-- The ACTION/GOTO tables plus conflicts (table.py `ParsingTable`); the two
dicts keyed by (state, symbol name) are insertion-ordered association lists
with unique keys. -/
structure PTable where
  action_table : List ((Nat × String) × ParsingAction)
  goto_table : List ((Nat × String) × Nat)
  conflicts : List ConflictInfo
deriving DecidableEq

/-- Dictionary `.get` on an association list: value of the first (hence only)
matching key, or `none`. -/
def alookup {V : Type} (t : List ((Nat × String) × V)) (k : Nat × String) : Option V :=
  (t.find? (fun kv => kv.1 == k)).map (fun kv => kv.2)

/-- `ParsingTable.get_action`, with the state argument an `Option Nat`
(a Python stack may carry `None` as a state, which matches no table key). -/
def getAction (t : PTable) (st : Option Nat) (tok : String) : Option ParsingAction :=
  (t.action_table.find? (fun kv => some kv.1.1 == st && kv.1.2 == tok)).map (fun kv => kv.2)

/-- `ParsingTable.get_goto`, same conventions as `getAction`. -/
def getGoto (t : PTable) (st : Option Nat) (name : String) : Option Nat :=
  (t.goto_table.find? (fun kv => some kv.1.1 == st && kv.1.2 == name)).map (fun kv => kv.2)

/-- `ParsingTable.has_conflicts`. -/
def hasConflicts (t : PTable) : Bool := !t.conflicts.isEmpty

/-- The engine's ingredients (engine.py `ParserEngine.__init__` keeps the
grammar and the parsing table; the constructor refuses a conflicted table). -/
structure ParserEngine where
  grammar : Grammar
  table : PTable
deriving DecidableEq

/-- Python exceptions that can escape the parsing loop: `IndexError` from
`productions[target]` with an out-of-range index, `TypeError` from indexing
with `None` (`TypeError` is *not* caught by `validate_input`). -/
inductive PyExc where
  | indexError
  | typeError
deriving DecidableEq

/-- Top state of the parser stack:
`parse_state.stack[-1][0] if parse_state.stack else 0`. -/
def topState (stack : List (Option Nat × String)) : Option Nat :=
  match stack.getLast? with
  | some e => e.1
  | none => some 0

/-- Set a key in a dict modelled as an association list: replace in place if
present (keeping insertion order), else append. -/
def assocSet {V : Type} (t : List (String × V)) (k : String) (v : V) : List (String × V) :=
  if t.any (fun kv => kv.1 == k) then
    t.map (fun kv => if kv.1 == k then (k, v) else kv)
  else t ++ [(k, v)]

/-- `ParserEngine._handle_shift`: create a terminal AST node for the token,
record it in the node map and on the AST stack, and return the creation-time
snapshot list (the `target_state` parameter of the source is unused). -/
def handleShift (ps : ParseState) (token : String) : List ASTNode × ParseState :=
  let nodeId := "node_" ++ toString ps.next_node_id
  let node : ASTNode :=
    { id := nodeId, symbol := token, symbol_type := SymbolType.terminal
      children := [], parent := none, production_used := none }
  ([node],
   { ps with
      next_node_id := ps.next_node_id + 1
      ast_nodes := assocSet ps.ast_nodes nodeId node
      ast_stack := ps.ast_stack ++ [nodeId] })

/-- `ParserEngine._handle_reduce`: pop the rhs-many node ids off the AST
stack (or clear it when too short, as the source's slice fallback does), make
them the children of a fresh non-terminal node, update each child's parent in
the node map by building replacement node records, and push the new node id.  The
returned snapshot holds the new node as dumped at creation (parent `none`). -/
def handleReduce (ps : ParseState) (production : Production) (productionIndex : Nat) :
    List ASTNode × ParseState :=
  let nodeId := "node_" ++ toString ps.next_node_id
  let k := production.rhs.length
  let childIds : List String :=
    if k > 0 then
      (if k ≤ ps.ast_stack.length then ps.ast_stack.drop (ps.ast_stack.length - k) else [])
    else []
  let astStack1 : List String :=
    if k > 0 then
      (if k ≤ ps.ast_stack.length then ps.ast_stack.take (ps.ast_stack.length - k) else [])
    else ps.ast_stack
  let node : ASTNode :=
    { id := nodeId, symbol := production.lhs.name, symbol_type := SymbolType.nonTerminal
      children := childIds, parent := none, production_used := some productionIndex }
  let astNodes1 :=
    childIds.foldl
      (fun m cid =>
        match m.find? (fun kv => kv.1 == cid) with
        | some kv => assocSet m cid { kv.2 with parent := some nodeId }
        | none => m)
      ps.ast_nodes
  ([node],
   { ps with
      next_node_id := ps.next_node_id + 1
      ast_nodes := assocSet astNodes1 nodeId node
      ast_stack := astStack1 ++ [nodeId] })

/-- Is the step's action terminal for the parse loop
(`step.action.action_type in (ActionType.ACCEPT.value, ActionType.ERROR.value)`)? -/
def isTerminalStep (s : ParsingStep) : Bool :=
  s.action.action_type == ActionTypeE.accept.value ||
  s.action.action_type == ActionTypeE.error.value

/-- The step record built by `ParserEngine._execute_step` from the
*pre-step* stack, cursor and step number. -/
def mkStep (ps : ParseState) (tok : Option String) (act : ParsingAction)
    (e : Explanation) (created : List ASTNode) : ParsingStep :=
  { step_number := ps.step_number, stack := ps.stack, input_pointer := ps.input_pointer
    current_token := tok, action := act, explanation := e, ast_nodes := created }

/-- `ParserEngine._execute_step`: look up ACTION for (top state, current
token), build the step record from the *pre-step* stack and cursor, and run
the shift/reduce handler (which mutates only the AST bookkeeping fields). -/
def executeStep (eng : ParserEngine) (ps : ParseState) :
    Except PyExc (ParsingStep × ParseState) :=
  match ps.input_tokens.get? ps.input_pointer with
  | none =>
      .ok (mkStep ps none (mkParsingAction .error none) .noAction [], ps)
  | some tok =>
      match getAction eng.table (topState ps.stack) tok with
      | none =>
          .ok (mkStep ps (some tok) (mkParsingAction .error none) .noAction [], ps)
      | some act =>
          if act.action_type == ActionTypeE.shift.value then
            .ok (mkStep ps (some tok) act .shiftExp (handleShift ps tok).1, (handleShift ps tok).2)
          else if act.action_type == ActionTypeE.reduce.value then
            match act.target with
            | none => .error .typeError
            | some t =>
                match eng.grammar.productions.get? t with
                | none => .error .indexError
                | some production =>
                    .ok (mkStep ps (some tok) act .reduceExp (handleReduce ps production t).1,
                         (handleReduce ps production t).2)
          else if act.action_type == ActionTypeE.accept.value then
            .ok (mkStep ps (some tok) act .acceptExp [], ps)
          else
            .ok (mkStep ps (some tok) act .invalidExp [], ps)

/-- Python's guarded pop loop
`for _ in range(k): if stack: stack.pop()`. -/
def popLoop {α : Type} : List α → Nat → List α
  | l, 0 => l
  | l, n + 1 => if l.isEmpty then l else popLoop l.dropLast n

/-- `ParserEngine._update_parse_state`: copy the state, bump the step number
(the source increments it twice — once in the constructor call and once at
the end), then apply the stack/cursor effect of the recorded action.  On a
reduce whose GOTO lookup is undefined the popped stack is kept with *no push
and no error*, exactly as in the source.  A recorded shift or reduce whose
target is `None` surfaces as an abnormal result (engine-produced steps always
carry a target and a token in those branches). -/
def updateParseState (eng : ParserEngine) (ps : ParseState) (step : ParsingStep) :
    Except PyExc ParseState :=
  let base : ParseState := { ps with step_number := ps.step_number + 2 }
  if step.action.action_type == ActionTypeE.shift.value then
    match step.current_token with
    | none => .error .typeError
    | some tok =>
        .ok { base with
                stack := base.stack ++ [(step.action.target, tok)]
                input_pointer := base.input_pointer + 1 }
  else if step.action.action_type == ActionTypeE.reduce.value then
    match step.action.target with
    | none => .error .typeError
    | some t =>
        match eng.grammar.productions.get? t with
        | none => .error .indexError
        | some production =>
            let stack1 := popLoop base.stack production.rhs.length
            let currentState := topState stack1
            match getGoto eng.table currentState production.lhs.name with
            | some s => .ok { base with stack := stack1 ++ [(some s, production.lhs.name)] }
            | none => .ok { base with stack := stack1 }
  else
    .ok base

/-- The initial parse state of `_parse_tokens`: stack `[(0, "")]`, cursor 0,
empty AST bookkeeping. -/
def initState (tokens : List String) : ParseState :=
  { stack := [(some 0, "")], input_tokens := tokens, input_pointer := 0
    step_number := 0, ast_nodes := [], ast_stack := [], next_node_id := 0 }

/-- The while-loop of `_parse_tokens`: at most `fuel` iterations, each
emitting one step; stop after an accept/error step (before updating the
state).  Returns the emitted steps together with the final parse state. -/
def parseLoop (eng : ParserEngine) : ParseState → Nat →
    Except PyExc (List ParsingStep × ParseState)
  | ps, 0 => .ok ([], ps)
  | ps, fuel + 1 =>
      match executeStep eng ps with
      | .error e => .error e
      | .ok (step, psM) =>
          if isTerminalStep step then .ok ([step], psM)
          else
            match updateParseState eng psM step with
            | .error e => .error e
            | .ok ps1 =>
                match parseLoop eng ps1 fuel with
                | .error e => .error e
                | .ok (rest, fin) => .ok (step :: rest, fin)

/-- The synthetic step-limit error step appended by `_parse_tokens` when the
loop ran `max_steps` times: built from the post-loop parse state, with the
step count as its number. -/
def limitStep (count : Nat) (fin : ParseState) : ParsingStep :=
  { step_number := count, stack := fin.stack, input_pointer := fin.input_pointer
    current_token := fin.input_tokens.get? fin.input_pointer
    action := mkParsingAction .error none, explanation := .stepLimit, ast_nodes := [] }

/-- `ParserEngine._parse_tokens`: run the step loop with the safety bound
`10 * len(tokens)` and append the synthetic error step when the bound was
used up.  Uncaught Python exceptions surface as `.error`. -/
def parseTokensM (eng : ParserEngine) (tokens : List String) :
    Except PyExc (List ParsingStep) :=
  match parseLoop eng (initState tokens) (tokens.length * 10) with
  | .error e => .error e
  | .ok (steps, fin) =>
      if tokens.length * 10 ≤ steps.length then .ok (steps ++ [limitStep steps.length fin])
      else .ok steps

/-- Python `str.isspace` restricted to the whitespace characters that occur
in practice (space, tab, newline, carriage return). -/
def isPySpace (c : Char) : Bool :=
  c == ' ' || c == Char.ofNat 9 || c == Char.ofNat 10 || c == Char.ofNat 13

/-- The single-character tokens of `_tokenize`: `()[]{}+-*/=<>!&|`. -/
def specialChars : List Char :=
  ['(', ')', '[', ']', Char.ofNat 123, Char.ofNat 125,
   '+', '-', '*', '/', '=', '<', '>', '!', '&', '|']

/-- `ParserEngine._tokenize`: split on whitespace, make each special
character its own token, and append the end marker. -/
def pyTokenize (s : String) : List String :=
  let flush := fun (toks : List String) (cur : String) =>
    if cur.isEmpty then toks else toks ++ [cur]
  let rec go : List Char → String → List String → List String
    | [], cur, toks => flush toks cur ++ [dollar]
    | c :: rest, cur, toks =>
        if isPySpace c then go rest "" (flush toks cur)
        else if specialChars.contains c then
          go rest "" (flush toks cur ++ [String.singleton c])
        else go rest (cur.push c) toks
  go s.data "" []

/-- The exported AST structure `{nodes: id→node, root: id|none}`. -/
structure ASTResult where
  nodes : List (String × ASTNode)
  root : Option String
deriving DecidableEq

/-- `ParserEngine._find_root_node`: last node whose symbol equals the
grammar's start-symbol name; else the last parentless non-terminal node with
children; else the last parentless node. -/
def findRootNode (eng : ParserEngine) (nodes : List (String × ASTNode)) : Option String :=
  let start := eng.grammar.start_symbol.name
  let rev := nodes.reverse
  match rev.find? (fun kv => kv.2.symbol == start) with
  | some kv => some kv.1
  | none =>
      let ntNames := (nonTerminalsOf eng.grammar).map (fun s => s.name)
      match rev.find? (fun kv =>
          kv.2.parent == none && !kv.2.children.isEmpty && ntNames.contains kv.2.symbol) with
      | some kv => some kv.1
      | none =>
          match rev.find? (fun kv => kv.2.parent == none) with
          | some kv => some kv.1
          | none => none

/-- `ParserEngine.get_ast`: fold the per-step creation-time node snapshots
into one map and locate the root. -/
def getAst (eng : ParserEngine) (steps : List ParsingStep) : ASTResult :=
  let nodes := steps.foldl
    (fun acc step => step.ast_nodes.foldl (fun acc nd => assocSet acc nd.id nd) acc) []
  { nodes := nodes, root := findRootNode eng nodes }

/-- The result record of `validate_input` (the `steps`/`error` payloads kept
only as far as the claims need them). -/
structure ValidationResult where
  valid : Bool
  errorExp : Option Explanation
  steps : List ParsingStep
  ast : Option ASTResult
deriving DecidableEq

/-- `ParserEngine.validate_input`: tokenize, parse, and branch on the final
step.  The comparison against `ActionType.ACCEPT` omits `.value`, so it
compares the stored value string with the enum member (`pyEqStrEnum`).  The
`except` clause catches `ValueError, KeyError, IndexError` — a `TypeError`
escapes, modelled as the `none` result. -/
def validateInput (eng : ParserEngine) (input : String) : Option ValidationResult :=
  match parseTokensM eng (pyTokenize input) with
  | .error e =>
      if e == PyExc.typeError then none
      else some { valid := false, errorExp := none, steps := [], ast := none }
  | .ok steps =>
      match steps.getLast? with
      | none => some { valid := false, errorExp := none, steps := [], ast := none }
      | some last =>
          if pyEqStrEnum last.action.action_type ActionTypeE.accept then
            some { valid := true, errorExp := none, steps := steps
                   ast := some (getAst eng steps) }
          else
            some { valid := false, errorExp := some last.explanation, steps := steps
                   ast := none }

/-- The memoization state of the FIRST computation
(grammar_v2.py `_first_cache`, `_first_nt_cache`, `_first_in_progress`;
identical code is installed on grammar.py grammars by items.py).  Caches are
association lists, the in-progress guard a list-set. -/
structure FirstState where
  seq_cache : List (List Symbol × List Symbol)
  nt_cache : List (Symbol × List Symbol)
  in_progress : List Symbol
deriving DecidableEq

/-- The empty cache state of a freshly constructed grammar. -/
def fs0 : FirstState := ⟨[], [], []⟩

/-- Add an element to a list-set (Python `set.add`). -/
def addU {α : Type} [BEq α] (l : List α) (a : α) : List α :=
  if l.contains a then l else l ++ [a]

/-- Union into a list-set (Python `set.update`). -/
def unionU {α : Type} [BEq α] (l : List α) (m : List α) : List α :=
  m.foldl addU l

mutual

/-- `Grammar.first(symbols)` (grammar_v2.py lines 94–142): memoized FIRST of
a symbol sequence.  Scans left to right: a terminal is added and stops the
scan, an epsilon-kind symbol is skipped, a non-terminal contributes its FIRST
minus ε and stops the scan unless ε is in that FIRST or the non-terminal has
a direct ε production; if the scan falls off the end, ε is added.  The result
is cached under the exact sequence.  The fuel bounds the recursion depth (the
Python recursion is bounded by the in-progress guard); all concrete uses
supply ample fuel. -/
def firstSeq (g : Grammar) (fs : FirstState) (symbols : List Symbol) :
    Nat → (List Symbol × FirstState)
  | 0 => ([], fs)
  | fuel + 1 =>
    match fs.seq_cache.find? (fun kv => kv.1 == symbols) with
    | some kv => (kv.2, fs)
    | none =>
        if symbols.isEmpty then
          ([], { fs with seq_cache := fs.seq_cache ++ [(symbols, [])] })
        else
          let (result, allEps, fs1) := firstScan g fs symbols fuel
          let result := if allEps then addU result epsSymbol else result
          (result, { fs1 with seq_cache := fs1.seq_cache ++ [(symbols, result)] })

/-- The left-to-right scan loop inside `Grammar.first`; returns the collected
set, the `all_can_derive_epsilon` flag, and the threaded cache state. -/
def firstScan (g : Grammar) (fs : FirstState) (symbols : List Symbol) :
    Nat → (List Symbol × Bool × FirstState)
  | 0 => ([], true, fs)
  | fuel + 1 =>
    match symbols with
    | [] => ([], true, fs)
    | s :: rest =>
        if s.kind == SymbolType.terminal then ([s], false, fs)
        else if s.kind == SymbolType.epsilon then firstScan g fs rest fuel
        else
          let (ntFirst, fs1) := firstNT g fs s fuel
          let contrib := ntFirst.filter (fun x => x.kind != SymbolType.epsilon)
          if !ntFirst.contains epsSymbol && !hasEpsilonProduction g s then
            (contrib, false, fs1)
          else
            let (restResult, allEps, fs2) := firstScan g fs1 rest fuel
            (unionU contrib restResult, allEps, fs2)

/-- `Grammar._first_of_non_terminal` (grammar_v2.py lines 144–179): memoized
FIRST of a single non-terminal with an in-progress cycle guard that returns
the empty set on re-entry.  An empty rhs contributes ε; other productions
contribute the FIRST of their rhs sequence. -/
def firstNT (g : Grammar) (fs : FirstState) (s : Symbol) :
    Nat → (List Symbol × FirstState)
  | 0 => ([], fs)
  | fuel + 1 =>
    match fs.nt_cache.find? (fun kv => kv.1 == s) with
    | some kv => (kv.2, fs)
    | none =>
        if fs.in_progress.contains s then ([], fs)
        else
          let fsIn := { fs with in_progress := fs.in_progress ++ [s] }
          let (firstSet, fs1) :=
            (getProductionsFor g s).foldl
              (fun (acc : List Symbol × FirstState) p =>
                if p.rhs.isEmpty then (addU acc.1 epsSymbol, acc.2)
                else
                  let (seqFirst, fs2) := firstSeq g acc.2 p.rhs fuel
                  (unionU acc.1 seqFirst, fs2))
              ([], fsIn)
          let fsOut := { fs1 with
                           in_progress := fs1.in_progress.filter (fun x => x != s)
                           nt_cache := fs1.nt_cache ++ [(s, firstSet)] }
          (firstSet, fsOut)

end

/-- An LR(1) item (items.py `LR1Item`): production, dot position, lookahead. -/
structure LR1Item where
  production : Production
  dot_position : Nat
  lookahead : Symbol
deriving DecidableEq

/-- `LR1Item.is_complete`: the dot is at (or past) the end of the rhs. -/
def LR1Item.is_complete (i : LR1Item) : Bool :=
  i.production.rhs.length ≤ i.dot_position

/-- `LR1Item.symbol_after_dot`: the rhs symbol at the dot, `none` when the
item is complete. -/
def LR1Item.symbol_after_dot (i : LR1Item) : Option Symbol :=
  i.production.rhs.get? i.dot_position

/-- `LR1Item.advance_dot` (callers guard against complete items). -/
def LR1Item.advance_dot (i : LR1Item) : LR1Item :=
  { i with dot_position := i.dot_position + 1 }

/-- The symbols after the dot excluding the first (`item.beta[1:]`), used to
build the FIRST argument of the closure rule. -/
def LR1Item.betaTail (i : LR1Item) : List Symbol :=
  (i.production.rhs.drop i.dot_position).drop 1

/-- One pass of the closure's `while changed` loop (items.py lines 115–143):
scan the snapshot of the item list; for each item `[A → α·Bβ, a]` with B a
non-terminal, add `[B → ·γ, b]` for every production `B → γ` and every
terminal `b ∈ FIRST(β a)` that is not yet present.  Returns the newly added
items (deduplicated) and the threaded FIRST cache. -/
def closurePass (g : Grammar) (fs : FirstState) (items : List LR1Item)
    (firstFuel : Nat) : List LR1Item × FirstState :=
  items.foldl
    (fun (acc : List LR1Item × FirstState) item =>
      match item.symbol_after_dot with
      | none => acc
      | some b =>
          if b.kind == SymbolType.nonTerminal then
            let (firstBetaA, fs1) := firstSeq g acc.2 (item.betaTail ++ [item.lookahead]) firstFuel
            let newItems :=
              (getProductionsFor g b).foldl
                (fun acc2 production =>
                  firstBetaA.foldl
                    (fun acc3 terminal =>
                      if terminal.kind == SymbolType.terminal then
                        let ni : LR1Item := ⟨production, 0, terminal⟩
                        if items.contains ni || acc3.contains ni then acc3
                        else acc3 ++ [ni]
                      else acc3)
                    acc2)
                acc.1
            (newItems, fs1)
          else acc)
    ([], fs)

/-- `ItemSet.closure`: iterate `closurePass` until no new item appears (the
fuel bounds the number of passes; concrete uses supply ample fuel). -/
def closureLoop (g : Grammar) (fs : FirstState) (items : List LR1Item)
    (firstFuel : Nat) : Nat → (List LR1Item × FirstState)
  | 0 => (items, fs)
  | fuel + 1 =>
      let (newItems, fs1) := closurePass g fs items firstFuel
      if newItems.isEmpty then (items, fs1)
      else closureLoop g fs1 (items ++ newItems) firstFuel fuel

/-- `ItemSet.goto`: advance the dot over `X` in every item that has `X`
after the dot; `none` when no item moves, else the closure of the moved
items. -/
def gotoFn (g : Grammar) (fs : FirstState) (items : List LR1Item) (x : Symbol)
    (firstFuel passFuel : Nat) : Option (List LR1Item) × FirstState :=
  let moved := (items.filter (fun i => i.symbol_after_dot == some x)).map LR1Item.advance_dot
  if moved.isEmpty then (none, fs)
  else
    let (c, fs1) := closureLoop g fs moved firstFuel passFuel
    (some c, fs1)

/-- `ItemSet.get_shift_symbols`: the distinct symbols after a dot of the
incomplete items. -/
def shiftSymbols (items : List LR1Item) : List Symbol :=
  items.foldl
    (fun acc i =>
      match i.symbol_after_dot with
      | some s => addU acc s
      | none => acc)
    []

/-- `ItemSet.get_reduce_items`: the complete items, in list order. -/
def reduceItems (items : List LR1Item) : List LR1Item :=
  items.filter LR1Item.is_complete

/-- A transition of the automaton (automaton.py `StateTransition`). -/
structure StateTransition where
  from_state : Nat
  to_state : Nat
  symbol : Symbol
deriving DecidableEq

/-- The canonical collection (automaton.py `Automaton`): the grammar, the
ordered list of states (each an item list standing for an item set) and the
transition list. -/
structure Automaton where
  grammar : Grammar
  states : List (List LR1Item)
  transitions : List StateTransition
deriving DecidableEq

/-- Item-set equality of two item lists (Python compares frozensets). -/
def stateEqB (a b : List LR1Item) : Bool :=
  a.all (fun i => b.contains i) && b.all (fun i => a.contains i)

/-- `Automaton.state_map` lookup: index of the first state equal (as a set)
to the candidate. -/
def findStateIdx (states : List (List LR1Item)) (s : List LR1Item) : Option Nat :=
  states.findIdx? (fun t => stateEqB t s)

/-- The worklist loop of `Automaton._build_automaton`: pop the front state
index, compute GOTO for each shiftable symbol, register unseen target item
sets as new states (enqueueing them) and record the transition.  The outer
fuel bounds the number of processed worklist entries. -/
def buildLoop (g : Grammar) (firstFuel passFuel : Nat) :
    List (List LR1Item) → List StateTransition → List Nat → FirstState → Nat →
    (List (List LR1Item) × List StateTransition)
  | states, trs, _, _, 0 => (states, trs)
  | states, trs, [], _, _ + 1 => (states, trs)
  | states, trs, si :: restWl, fs, fuel + 1 =>
      let cur := states.getD si []
      let step :=
        (shiftSymbols cur).foldl
          (fun (acc : List (List LR1Item) × List StateTransition × List Nat × FirstState)
               sym =>
            let (st, tr, wl, f) := acc
            match gotoFn g f cur sym firstFuel passFuel with
            | (none, f1) => (st, tr, wl, f1)
            | (some gs, f1) =>
                match findStateIdx st gs with
                | some ti => (st, tr ++ [⟨si, ti, sym⟩], wl, f1)
                | none =>
                    (st ++ [gs], tr ++ [⟨si, st.length, sym⟩], wl ++ [st.length], f1))
          (states, trs, restWl, fs)
      buildLoop g firstFuel passFuel step.1 step.2.1 step.2.2.1 step.2.2.2 fuel

/-- `Automaton.__init__` / `_build_automaton`: state 0 is the closure of
`{[S' → ·S, $]}`; the worklist then explores all GOTOs. -/
def buildAutomaton (g : Grammar) (firstFuel passFuel wlFuel : Nat) : Automaton :=
  let p0 := g.productions.headD ⟨⟨"", SymbolType.nonTerminal⟩, []⟩
  let initialItem : LR1Item := ⟨p0, 0, dollarSym⟩
  let (state0, fs1) := closureLoop g fs0 [initialItem] firstFuel passFuel
  let (states, trs) := buildLoop g firstFuel passFuel [state0] [] [0] fs1 wlFuel
  { grammar := g, states := states, transitions := trs }

/-- `Automaton.get_transitions_from_state`. -/
def transitionsFrom (auto : Automaton) (si : Nat) : List StateTransition :=
  auto.transitions.filter (fun t => t.from_state == si)

/-- One pending ACTION-table assignment of `ParsingTable._build_tables`: the
target cell, the incoming action, and the conflict-kind computed from the
pre-existing action when the cell is occupied. -/
structure AAssign where
  key : Nat × String
  act : ParsingAction
  kind_of : ParsingAction → String

/-- Index of a production in the grammar's list (`productions.index`,
first match; total here, whereas Python would raise on a missing production —
productions of automaton items always come from the grammar). -/
def productionIndex (g : Grammar) (p : Production) : Nat :=
  g.productions.findIdx (fun q => q == p)

/-- The ACTION assignments contributed by one state, in source order:
first the reduce items (`_process_reduce_items` — the complete augmented
production installs accept at its lookahead column, any other complete item
installs a reduce), then the shift actions from the terminal transitions
(`_process_shift_actions`). -/
def stateAssigns (g : Grammar) (auto : Automaton) (si : Nat) : List AAssign :=
  let p0 := g.productions.headD ⟨⟨"", SymbolType.nonTerminal⟩, []⟩
  let state := auto.states.getD si []
  let reduceAssigns :=
    (reduceItems state).map (fun item =>
      if item.production == p0 then
        { key := (si, item.lookahead.name)
          act := mkParsingAction .accept none
          kind_of := fun _ => "accept_conflict" }
      else
        { key := (si, item.lookahead.name)
          act := mkParsingAction .reduce (some (productionIndex g item.production))
          kind_of := fun ex =>
            if ex.action_type == ActionTypeE.shift.value then "shift_reduce"
            else "reduce_reduce" })
  let shiftAssigns :=
    ((transitionsFrom auto si).filter (fun t => t.symbol.kind == SymbolType.terminal)).map
      (fun t =>
        { key := (si, t.symbol.name)
          act := mkParsingAction .shift (some t.to_state)
          kind_of := fun ex =>
            if ex.action_type == ActionTypeE.reduce.value then "shift_reduce"
            else "shift_shift" })
  reduceAssigns ++ shiftAssigns

/-- All ACTION assignments of `_build_tables`, states in index order. -/
def allAssignments (g : Grammar) (auto : Automaton) : List AAssign :=
  (List.range auto.states.length).flatMap (stateAssigns g auto)

/-- Apply one assignment (`_add_accept_action` / `_add_reduce_action` /
`_process_shift_actions`): when the cell is already occupied the table is
left unchanged and a conflict holding the pre-existing and incoming actions
is appended (`_add_conflict`); otherwise the cell is installed. -/
def applyAssign (tc : List ((Nat × String) × ParsingAction) × List ConflictInfo)
    (a : AAssign) : List ((Nat × String) × ParsingAction) × List ConflictInfo :=
  match alookup tc.1 a.key with
  | some ex =>
      (tc.1, tc.2 ++ [{ state := a.key.1, symbol := a.key.2
                        actions := [ex, a.act], conflict_type := a.kind_of ex }])
  | none => (tc.1 ++ [(a.key, a.act)], tc.2)

/-- Fold a list of assignments over an empty table. -/
def foldAssigns (asgs : List AAssign) :
    List ((Nat × String) × ParsingAction) × List ConflictInfo :=
  asgs.foldl applyAssign ([], [])

/-- The GOTO table of `_process_goto_transitions`: every non-terminal
transition writes its target state (plain dict assignment). -/
def buildGotoTable (auto : Automaton) : List ((Nat × String) × Nat) :=
  ((List.range auto.states.length).flatMap
      (fun si => (transitionsFrom auto si).filter
        (fun t => t.symbol.kind == SymbolType.nonTerminal))).foldl
    (fun t tr =>
      if t.any (fun kv => kv.1 == (tr.from_state, tr.symbol.name)) then
        t.map (fun kv =>
          if kv.1 == (tr.from_state, tr.symbol.name) then (kv.1, tr.to_state) else kv)
      else t ++ [((tr.from_state, tr.symbol.name), tr.to_state)])
    []

/-- `ParsingTable.__init__` / `_build_tables`: synthesize ACTION (with
conflict recording) and GOTO from the automaton. -/
def buildParsingTable (g : Grammar) (auto : Automaton) : PTable :=
  let (actions, conflicts) := foldAssigns (allAssignments g auto)
  { action_table := actions, goto_table := buildGotoTable auto, conflicts := conflicts }

/-! Concrete instances used to settle the claims. -/

/-- The augmented-style symbol named `S'` (start name + apostrophe). -/
def symSAug : Symbol := ⟨"S" ++ apos, SymbolType.nonTerminal⟩

/-- The non-terminal `S`. -/
def symS : Symbol := ⟨"S", SymbolType.nonTerminal⟩

/-- The non-terminal `B`. -/
def symB : Symbol := ⟨"B", SymbolType.nonTerminal⟩

/-- The terminal `a`. -/
def symTa : Symbol := ⟨"a", SymbolType.terminal⟩

/-- The terminal `b`. -/
def symTb : Symbol := ⟨"b", SymbolType.terminal⟩

/-- The terminal `c`. -/
def symTc : Symbol := ⟨"c", SymbolType.terminal⟩

/-- The terminal `d`. -/
def symTd : Symbol := ⟨"d", SymbolType.terminal⟩

/-- The terminal `e`. -/
def symTe : Symbol := ⟨"e", SymbolType.terminal⟩

/-- Productions `S' → S`, `B → ε` of a grammar whose table will drive a
reduce into an undefined GOTO. -/
def prodsMissingGoto : List Production := [⟨symSAug, [symS]⟩, ⟨symB, []⟩]

/-- A conflict-free table whose only action reduces by the ε production
`B → ε` from state 0 on token `a`, with no GOTO entry at all. -/
def tblMissingGoto : PTable :=
  { action_table := [((0, "a"), mkParsingAction .reduce (some 1))]
    goto_table := [], conflicts := [] }

/-- The engine over `tblMissingGoto`. -/
def engMissingGoto : ParserEngine := ⟨⟨prodsMissingGoto, symSAug⟩, tblMissingGoto⟩

/-- The trace of parsing `"a"` with `engMissingGoto`. -/
def stepsMissingGoto : List ParsingStep :=
  match parseTokensM engMissingGoto (pyTokenize "a") with
  | .ok l => l
  | .error _ => []

/-- The augmented grammar for the single production `S → a`
(as `from_string "S -> a"` would build it). -/
def gSa : Grammar := ⟨[⟨symSAug, [symS]⟩, ⟨symS, [symTa]⟩], symSAug⟩

/-- The canonical collection for `gSa`. -/
def autoSa : Automaton := buildAutomaton gSa 20 20 20

/-- The parsing table for `gSa`. -/
def tblSa : PTable := buildParsingTable gSa autoSa

/-- The engine for `gSa`. -/
def engSa : ParserEngine := ⟨gSa, tblSa⟩

/-- The trace of parsing `"a"` with `engSa`. -/
def stepsSa : List ParsingStep :=
  match parseTokensM engSa (pyTokenize "a") with
  | .ok l => l
  | .error _ => []

/-- The augmented production `S' → S` of the colliding grammar. -/
def pAugCol : Production := ⟨symSAug, [symS]⟩

/-- The user production `S → c S' d` of the colliding grammar. -/
def pSCol : Production := ⟨symS, [symTc, symSAug, symTd]⟩

/-- The user production `S' → e` of the colliding grammar: its lhs is the
very symbol the augmentation uses. -/
def pECol : Production := ⟨symSAug, [symTe]⟩

/-- The augmented grammar built by `from_string` for the grammar text
`S -> c S' d` / `S' -> e` with start symbol `S`: the user's own symbol `S'`
collides with the augmented start. -/
def gCollide : Grammar := ⟨[pAugCol, pSCol, pECol], symSAug⟩

/-- State 0 of the colliding grammar's automaton: the closure of
`{[S' → ·S, $]}`. -/
def state0Col : List LR1Item := [⟨pAugCol, 0, dollarSym⟩, ⟨pSCol, 0, dollarSym⟩]

/-- The state reached from state 0 on `c`: because `S'` is not fresh, the
closure expands the productions of `S'` — including the augmented
`S' → S` — under lookahead `d`. -/
def stateCCol : List LR1Item :=
  [⟨pSCol, 1, dollarSym⟩, ⟨pAugCol, 0, symTd⟩, ⟨pECol, 0, symTd⟩, ⟨pSCol, 0, symTd⟩]

/-- The state reached from `stateCCol` on `S`: the complete augmented item
with lookahead `d` ≠ `$`. -/
def stateDCol : List LR1Item := [⟨pAugCol, 1, symTd⟩]

/-- Automaton data holding the three states above (the reachable prefix of
the canonical collection that exhibits the colliding accept state). -/
def autoCol : Automaton := ⟨gCollide, [state0Col, stateCCol, stateDCol], []⟩

/-- The table synthesized from `autoCol`. -/
def tblCol : PTable := buildParsingTable gCollide autoCol

/-- The non-terminal `A` of the FIRST cycle-guard grammar. -/
def symA4 : Symbol := ⟨"A", SymbolType.nonTerminal⟩

/-- The augmented start of the FIRST cycle-guard grammar. -/
def symA4Aug : Symbol := ⟨"A" ++ apos, SymbolType.nonTerminal⟩

/-- The non-terminal `B` of the FIRST cycle-guard grammar. -/
def symB4 : Symbol := ⟨"B2", SymbolType.nonTerminal⟩

/-- The non-terminal `D` of the FIRST cycle-guard grammar. -/
def symD4 : Symbol := ⟨"D", SymbolType.nonTerminal⟩

/-- The terminal `x` of the FIRST cycle-guard grammar. -/
def symX4 : Symbol := ⟨"x", SymbolType.terminal⟩

/-- The augmented grammar `A' → A; A → B2 | D; D → ε; B2 → A x`:
`A` derives ε only through `D`, and `x ∈ FIRST(A)` through `B2 → A x`. -/
def gFirstBug : Grammar :=
  ⟨[⟨symA4Aug, [symA4]⟩, ⟨symA4, [symB4]⟩, ⟨symA4, [symD4]⟩, ⟨symD4, []⟩,
    ⟨symB4, [symA4, symX4]⟩], symA4Aug⟩

/-- The FIRST set the source computes for the sequence `(A,)` on a fresh
`gFirstBug` grammar. -/
def firstBugResult : List Symbol := (firstSeq gFirstBug fs0 [symA4] 30).1

/-- A 20-state chain table: states 0–18 reduce by `B → ε` on `a` with
`GOTO[i, B] = i + 1`; state 19 has no action, so the error lands exactly on
the step bound for the 2-token input `a $`. -/
def tblChain : PTable :=
  { action_table := (List.range 19).map (fun i => ((i, "a"), mkParsingAction .reduce (some 1)))
    goto_table := (List.range 19).map (fun i => ((i, "B"), i + 1))
    conflicts := [] }

/-- The engine over `tblChain`. -/
def engChain : ParserEngine := ⟨⟨prodsMissingGoto, symSAug⟩, tblChain⟩

/-- The trace of parsing `"a"` with `engChain`. -/
def stepsChain : List ParsingStep :=
  match parseTokensM engChain (pyTokenize "a") with
  | .ok l => l
  | .error _ => []

/-- Number of synthetic step-limit steps in a trace. -/
def countLimit (l : List ParsingStep) : Nat :=
  (l.filter (fun s => s.explanation == Explanation.stepLimit)).length

/-- Specification-side nullability, following the spec's FIRST rules
(spec §4.1): an ε-kind symbol derives ε, and a non-terminal derives ε when
some production for it has a rhs all of whose symbols derive ε (an empty rhs
trivially qualifies).  This is the comparison definition written from the
spec's words, against which the source's FIRST computation is checked. -/
inductive DerivesEps (g : Grammar) : Symbol → Prop where
  | eps : ∀ x : Symbol, x.kind = SymbolType.epsilon → DerivesEps g x
  | viaProduction : ∀ (x : Symbol) (p : Production), p ∈ g.productions → p.lhs = x →
      (∀ y ∈ p.rhs, DerivesEps g y) → DerivesEps g x

/-- Specification-side membership of a terminal in FIRST of a symbol
sequence, following the spec's rules (spec §4.1): scanning left to right, a
terminal head contributes itself and stops the scan; a non-terminal head
contributes FIRST of each of its productions' rhs; a head that can derive ε
may be skipped.  This is the comparison definition written from the spec's
words. -/
inductive SpecFirstSeq (g : Grammar) : List Symbol → Symbol → Prop where
  | headTerminal : ∀ (t : Symbol) (rest : List Symbol), t.kind = SymbolType.terminal →
      SpecFirstSeq g (t :: rest) t
  | headNonTerminal : ∀ (x : Symbol) (rest : List Symbol) (p : Production) (t : Symbol),
      x.kind = SymbolType.nonTerminal → p ∈ g.productions → p.lhs = x →
      SpecFirstSeq g p.rhs t → SpecFirstSeq g (x :: rest) t
  | skipEps : ∀ (x : Symbol) (rest : List Symbol) (t : Symbol),
      DerivesEps g x → SpecFirstSeq g rest t → SpecFirstSeq g (x :: rest) t

/-- The grammar that `from_string` builds for the text
`S -> S' a` / `S' -> b` with start symbol `S`: the user's non-terminal is
literally named `S'`. -/
def gClash : Grammar :=
  fromProductionList [⟨symS, [symSAug, symTa]⟩, ⟨symSAug, [symTb]⟩] "S"

/-- The production `A → a` of the reduce-reduce example grammar G₄. -/
def pRRa : Production := ⟨⟨"A", SymbolType.nonTerminal⟩, [symTa]⟩

/-- The production `B → a` of the reduce-reduce example grammar G₄. -/
def pRRb : Production := ⟨⟨"B", SymbolType.nonTerminal⟩, [symTa]⟩

/-- A grammar with two productions reducing the same terminal (G₄-style). -/
def gRR : Grammar := ⟨[⟨symSAug, [symS]⟩, pRRa, pRRb], symSAug⟩

/-- Automaton data with a single state holding the two complete items
`[A → a·, $]` and `[B → a·, $]`, triggering a reduce/reduce conflict during
table synthesis. -/
def autoRR : Automaton :=
  ⟨gRR, [[⟨pRRa, 1, dollarSym⟩, ⟨pRRb, 1, dollarSym⟩]], []⟩

/-- The AST exported for the successful parse of `"a"` with `engSa`. -/
def astSa : ASTResult := getAst engSa stepsSa

/-- A parse state of `engSa` looking at the unknown token `b`
(no ACTION entry exists for it). -/
def psBad : ParseState :=
  { stack := [(some 0, "")], input_tokens := ["b", "$"], input_pointer := 0
    step_number := 0, ast_nodes := [], ast_stack := [], next_node_id := 0 }

/-- The trace of parsing `"b"` with `engSa` (immediate `no_action` error). -/
def stepsBad : List ParsingStep :=
  match parseTokensM engSa (pyTokenize "b") with
  | .ok l => l
  | .error _ => []

/-- The `no_action` error step `executeStep` produces from `psBad`. -/
def stepBadW : ParsingStep :=
  mkStep psBad (some "b") (mkParsingAction .error none) .noAction []

/-- A parse state of `engSa` after the shift of `a` (stack `0, 2`), for
instantiating the reduce transition law. -/
def psMid : ParseState :=
  { stack := [(some 0, ""), (some 2, "a")], input_tokens := ["a", "$"], input_pointer := 1
    step_number := 2, ast_nodes := [], ast_stack := [], next_node_id := 1 }

/-- A recorded shift step for the transition-law witness. -/
def stepShiftW : ParsingStep :=
  { step_number := 0, stack := [(some 0, "")], input_pointer := 0, current_token := some "a"
    action := mkParsingAction .shift (some 2), explanation := .shiftExp, ast_nodes := [] }

/-- A recorded reduce step (by `S → a`) for the transition-law witness. -/
def stepReduceW : ParsingStep :=
  { step_number := 2, stack := [(some 0, ""), (some 2, "a")], input_pointer := 1
    current_token := some "$", action := mkParsingAction .reduce (some 1)
    explanation := .reduceExp, ast_nodes := [] }

/-! Helper lemmas. -/

/-- A successful association-list lookup survives appending entries. -/
theorem alookup_append_of_some {V : Type} {t : List ((Nat × String) × V)}
    {k : Nat × String} {v : V} (h : alookup t k = some v) (u : List ((Nat × String) × V)) :
    alookup (t ++ u) k = some v := by
  unfold alookup at h ⊢
  rw [List.find?_append]
  cases hf : t.find? (fun kv => kv.1 == k) with
  | none => rw [hf] at h; simp at h
  | some kv => rw [hf] at h; simp_all

/-- One assignment step never disturbs an installed ACTION entry. -/
theorem applyAssign_mono {tc : List ((Nat × String) × ParsingAction) × List ConflictInfo}
    {k : Nat × String} {v : ParsingAction} (a : AAssign)
    (h : alookup tc.1 k = some v) : alookup (applyAssign tc a).1 k = some v := by
  unfold applyAssign
  cases hl : alookup tc.1 a.key with
  | some ex => simpa using h
  | none => simpa using alookup_append_of_some h _

/-- Folding any assignment list never disturbs an installed ACTION entry. -/
theorem foldl_applyAssign_mono (asgs : List AAssign)
    {tc : List ((Nat × String) × ParsingAction) × List ConflictInfo}
    {k : Nat × String} {v : ParsingAction} (h : alookup tc.1 k = some v) :
    alookup (asgs.foldl applyAssign tc).1 k = some v := by
  induction asgs generalizing tc with
  | nil => simpa using h
  | cons a rest ih => exact ih (applyAssign_mono a h)

/-- Claim C6 — conflict recording is a pure frame effect: (1) an ACTION
entry installed after processing any prefix of the assignment sequence is
still present, unchanged, in the finished table (the first-installed action
is kept; no conflicting assignment overwrites it); (2) an assignment whose
target cell is already occupied leaves the ACTION table exactly as it was
and appends one conflict record holding the pre-existing and the incoming
action. -/
theorem c6_conflict_frame (g : Grammar) (auto : Automaton) :
    (∀ (i : Nat) (k : Nat × String) (v : ParsingAction),
       alookup (foldAssigns ((allAssignments g auto).take i)).1 k = some v →
       alookup (buildParsingTable g auto).action_table k = some v)
    ∧ (∀ (i : Nat) (asg : AAssign) (v : ParsingAction),
       (allAssignments g auto).get? i = some asg →
       alookup (foldAssigns ((allAssignments g auto).take i)).1 asg.key = some v →
       foldAssigns ((allAssignments g auto).take (i + 1)) =
         ((foldAssigns ((allAssignments g auto).take i)).1,
          (foldAssigns ((allAssignments g auto).take i)).2 ++
            [{ state := asg.key.1, symbol := asg.key.2, actions := [v, asg.act],
               conflict_type := asg.kind_of v }])) := by
  constructor
  · intro i k v h
    show alookup (foldAssigns (allAssignments g auto)).1 k = some v
    have hsplit : allAssignments g auto =
        (allAssignments g auto).take i ++ (allAssignments g auto).drop i :=
      (List.take_append_drop i (allAssignments g auto)).symm
    unfold foldAssigns
    rw [hsplit, List.foldl_append]
    exact foldl_applyAssign_mono _ h
  · intro i asg v hget hlook
    have htake : (allAssignments g auto).take (i + 1) =
        (allAssignments g auto).take i ++ [asg] := by
      rw [List.take_succ, ← List.get?_eq_getElem?, hget]
      rfl
    unfold foldAssigns
    rw [htake, List.foldl_append]
    show applyAssign (foldAssigns ((allAssignments g auto).take i)) asg = _
    unfold applyAssign
    rw [hlook]
    rfl

/-- Witness for C6: on the reduce/reduce automaton `autoRR`, the second
assignment targets the occupied cell (0, $); the ACTION table keeps the
first-installed reduce, and the conflict list gains one record holding both
reduce actions with kind `reduce_reduce`. -/
theorem c6_conflict_frame_witness :
    alookup (buildParsingTable gRR autoRR).action_table (0, dollar) =
      some (mkParsingAction .reduce (some 1))
    ∧ (foldAssigns ((allAssignments gRR autoRR).take 2)).1 =
        (foldAssigns ((allAssignments gRR autoRR).take 1)).1
    ∧ (foldAssigns ((allAssignments gRR autoRR).take 2)).2 =
        (foldAssigns ((allAssignments gRR autoRR).take 1)).2 ++
          [{ state := 0, symbol := dollar
             actions := [mkParsingAction .reduce (some 1), mkParsingAction .reduce (some 2)]
             conflict_type := "reduce_reduce" }] := by
  have h1 := (c6_conflict_frame gRR autoRR).1 1 (0, dollar)
    (mkParsingAction .reduce (some 1)) rfl
  have h2 := (c6_conflict_frame gRR autoRR).2 1 _ _ rfl rfl
  refine ⟨h1, ?_, ?_⟩
  · rw [h2]
  · rw [h2]
    rfl

/-- A step produced by `executeStep` never carries the synthetic step-limit
explanation (only `_parse_tokens` builds that step). -/
theorem executeStep_not_stepLimit {eng : ParserEngine} {ps : ParseState}
    {step : ParsingStep} {ps2 : ParseState}
    (h : executeStep eng ps = .ok (step, ps2)) : step.explanation ≠ .stepLimit := by
  unfold executeStep at h
  split at h
  · cases h
    simp [mkStep]
  · split at h
    · cases h
      simp [mkStep]
    · split at h
      · cases h
        simp [mkStep]
      · split at h
        · split at h
          · exact absurd h (by simp)
          · split at h
            · exact absurd h (by simp)
            · cases h
              simp [mkStep]
        · split at h
          · cases h
            simp [mkStep]
          · cases h
            simp [mkStep]

/-- A step produced by `executeStep` with the `no_action` explanation is the
error step of the undefined-ACTION branch: the parser state is returned
untouched, no AST node is created, and the step records the pre-step stack,
cursor, current token and an error action. -/
theorem executeStep_noAction {eng : ParserEngine} {ps : ParseState}
    {step : ParsingStep} {ps2 : ParseState}
    (h : executeStep eng ps = .ok (step, ps2)) (hx : step.explanation = .noAction) :
    ps2 = ps ∧ step.ast_nodes = [] ∧ step.stack = ps.stack
    ∧ step.input_pointer = ps.input_pointer
    ∧ step.current_token = ps.input_tokens.get? ps.input_pointer
    ∧ step.step_number = ps.step_number
    ∧ step.action = mkParsingAction .error none := by
  unfold executeStep at h
  split at h
  · rename_i heq
    cases h
    simp_all [mkStep, heq]
  · rename_i heq
    split at h
    · cases h
      simp_all [mkStep, heq]
    · split at h
      · cases h
        simp_all [mkStep]
      · split at h
        · split at h
          · exact absurd h (by simp)
          · split at h
            · exact absurd h (by simp)
            · cases h
              simp_all [mkStep]
        · split at h
          · cases h
            simp_all [mkStep]
          · cases h
            simp_all [mkStep]

/-- The parse loop emits at most `fuel` steps. -/
theorem parseLoop_length_le {eng : ParserEngine} :
    ∀ {fuel : Nat} {ps : ParseState} {l : List ParsingStep} {fin : ParseState},
    parseLoop eng ps fuel = .ok (l, fin) → l.length ≤ fuel := by
  intro fuel
  induction fuel with
  | zero =>
      intro ps l fin h
      unfold parseLoop at h
      cases h
      simp
  | succ n ih =>
      intro ps l fin h
      unfold parseLoop at h
      cases hexec : executeStep eng ps with
      | error e => rw [hexec] at h; cases h
      | ok pr =>
          obtain ⟨step, psM⟩ := pr
          rw [hexec] at h
          dsimp only at h
          by_cases hterm : isTerminalStep step = true
          · rw [if_pos hterm] at h
            cases h
            simp
          · rw [if_neg hterm] at h
            cases hupd : updateParseState eng psM step with
            | error e => rw [hupd] at h; cases h
            | ok ps1 =>
                rw [hupd] at h
                dsimp only at h
                cases hrec : parseLoop eng ps1 n with
                | error e => rw [hrec] at h; cases h
                | ok pr2 =>
                    obtain ⟨rest, fin2⟩ := pr2
                    rw [hrec] at h
                    dsimp only at h
                    cases h
                    simpa using Nat.succ_le_succ (ih hrec)

/-- If the loop never emitted an accept or error step, it used its whole
fuel: one step per iteration. -/
theorem parseLoop_length_eq {eng : ParserEngine} :
    ∀ {fuel : Nat} {ps : ParseState} {l : List ParsingStep} {fin : ParseState},
    parseLoop eng ps fuel = .ok (l, fin) → (∀ s ∈ l, isTerminalStep s = false) →
    l.length = fuel := by
  intro fuel
  induction fuel with
  | zero =>
      intro ps l fin h hnt
      unfold parseLoop at h
      cases h
      simp
  | succ n ih =>
      intro ps l fin h hnt
      unfold parseLoop at h
      cases hexec : executeStep eng ps with
      | error e => rw [hexec] at h; cases h
      | ok pr =>
          obtain ⟨step, psM⟩ := pr
          rw [hexec] at h
          dsimp only at h
          by_cases hterm : isTerminalStep step = true
          · rw [if_pos hterm] at h
            cases h
            have := hnt step (by simp)
            rw [this] at hterm
            cases hterm
          · rw [if_neg hterm] at h
            cases hupd : updateParseState eng psM step with
            | error e => rw [hupd] at h; cases h
            | ok ps1 =>
                rw [hupd] at h
                dsimp only at h
                cases hrec : parseLoop eng ps1 n with
                | error e => rw [hrec] at h; cases h
                | ok pr2 =>
                    obtain ⟨rest, fin2⟩ := pr2
                    rw [hrec] at h
                    dsimp only at h
                    cases h
                    have : rest.length = n := ih hrec (fun s hs => hnt s (by simp [hs]))
                    simp [this]

/-- Every step emitted by the parse loop comes from `executeStep`, hence is
never the synthetic step-limit step. -/
theorem parseLoop_no_stepLimit {eng : ParserEngine} :
    ∀ {fuel : Nat} {ps : ParseState} {l : List ParsingStep} {fin : ParseState},
    parseLoop eng ps fuel = .ok (l, fin) → ∀ s ∈ l, s.explanation ≠ .stepLimit := by
  intro fuel
  induction fuel with
  | zero =>
      intro ps l fin h s hs
      unfold parseLoop at h
      cases h
      simp at hs
  | succ n ih =>
      intro ps l fin h s hs
      unfold parseLoop at h
      cases hexec : executeStep eng ps with
      | error e => rw [hexec] at h; cases h
      | ok pr =>
          obtain ⟨step, psM⟩ := pr
          rw [hexec] at h
          dsimp only at h
          by_cases hterm : isTerminalStep step = true
          · rw [if_pos hterm] at h
            cases h
            simp at hs
            subst hs
            exact executeStep_not_stepLimit hexec
          · rw [if_neg hterm] at h
            cases hupd : updateParseState eng psM step with
            | error e => rw [hupd] at h; cases h
            | ok ps1 =>
                rw [hupd] at h
                dsimp only at h
                cases hrec : parseLoop eng ps1 n with
                | error e => rw [hrec] at h; cases h
                | ok pr2 =>
                    obtain ⟨rest, fin2⟩ := pr2
                    rw [hrec] at h
                    dsimp only at h
                    cases h
                    rcases List.mem_cons.mp hs with hs1 | hs2
                    · subst hs1
                      exact executeStep_not_stepLimit hexec
                    · exact ih hrec s hs2

/-- An accept or error step ends the loop: it is the last emitted step. -/
theorem parseLoop_terminal_last {eng : ParserEngine} :
    ∀ {fuel : Nat} {ps : ParseState} {l : List ParsingStep} {fin : ParseState},
    parseLoop eng ps fuel = .ok (l, fin) →
    ∀ (i : Nat) (s : ParsingStep), l.get? i = some s → isTerminalStep s = true →
    i + 1 = l.length := by
  intro fuel
  induction fuel with
  | zero =>
      intro ps l fin h i s hi hterm
      unfold parseLoop at h
      cases h
      simp at hi
  | succ n ih =>
      intro ps l fin h i s hi htm
      unfold parseLoop at h
      cases hexec : executeStep eng ps with
      | error e => rw [hexec] at h; cases h
      | ok pr =>
          obtain ⟨step, psM⟩ := pr
          rw [hexec] at h
          dsimp only at h
          by_cases hterm : isTerminalStep step = true
          · rw [if_pos hterm] at h
            cases h
            cases i with
            | zero => simp
            | succ j =>
                rw [List.get?_cons_succ] at hi
                simp at hi
          · rw [if_neg hterm] at h
            cases hupd : updateParseState eng psM step with
            | error e => rw [hupd] at h; cases h
            | ok ps1 =>
                rw [hupd] at h
                dsimp only at h
                cases hrec : parseLoop eng ps1 n with
                | error e => rw [hrec] at h; cases h
                | ok pr2 =>
                    obtain ⟨rest, fin2⟩ := pr2
                    rw [hrec] at h
                    dsimp only at h
                    cases h
                    cases i with
                    | zero =>
                        rw [List.get?_cons_zero] at hi
                        injection hi with hi
                        subst hi
                        exact absurd htm hterm
                    | succ j =>
                        rw [List.get?_cons_succ] at hi
                        have := ih hrec j s hi htm
                        simp [← this]

/-- Claim C8 — the step-count safety bound: (1) the parse loop runs at most
its fuel (10·|tokens|) many iterations, one emitted step each, so parsing
terminates with at most 10·|tokens| + 1 steps in the trace; (2) a run that
uses the whole bound without an accept or error step gets exactly one
synthetic step-limit error step appended as the final step; (3) a run whose
last emitted step is an accept or error reached before the bound gets no
synthetic step. -/
theorem c8_step_bound :
    (∀ (eng : ParserEngine) (ps : ParseState) (fuel : Nat) (l : List ParsingStep)
       (fin : ParseState), parseLoop eng ps fuel = .ok (l, fin) → l.length ≤ fuel)
    ∧ (∀ (eng : ParserEngine) (toks : List String) (steps : List ParsingStep),
       parseTokensM eng toks = .ok steps → steps.length ≤ toks.length * 10 + 1)
    ∧ (∀ (eng : ParserEngine) (toks : List String) (l : List ParsingStep) (fin : ParseState),
       parseLoop eng (initState toks) (toks.length * 10) = .ok (l, fin) →
       (∀ s ∈ l, isTerminalStep s = false) →
       parseTokensM eng toks = .ok (l ++ [limitStep l.length fin])
         ∧ (limitStep l.length fin).explanation = .stepLimit
         ∧ (parseTokensM eng toks).map countLimit = .ok 1)
    ∧ (∀ (eng : ParserEngine) (toks : List String) (l : List ParsingStep) (fin : ParseState)
       (s : ParsingStep),
       parseLoop eng (initState toks) (toks.length * 10) = .ok (l, fin) →
       l.getLast? = some s → isTerminalStep s = true → l.length < toks.length * 10 →
       parseTokensM eng toks = .ok l ∧ (parseTokensM eng toks).map countLimit = .ok 0) := by
  have hcl : ∀ (eng : ParserEngine) ps fuel l fin, parseLoop eng ps fuel = .ok (l, fin) →
      countLimit l = 0 := by
    intro eng ps fuel l fin h
    unfold countLimit
    rw [List.length_eq_zero]
    rw [List.filter_eq_nil_iff]
    intro s hs
    simpa using parseLoop_no_stepLimit h s hs
  refine ⟨fun eng ps fuel l fin h => parseLoop_length_le h, ?_, ?_, ?_⟩
  · intro eng toks steps h
    unfold parseTokensM at h
    cases hloop : parseLoop eng (initState toks) (toks.length * 10) with
    | error e => rw [hloop] at h; cases h
    | ok pr =>
        obtain ⟨l, fin⟩ := pr
        rw [hloop] at h
        dsimp only at h
        have hle := parseLoop_length_le hloop
        by_cases hb : toks.length * 10 ≤ l.length
        · rw [if_pos hb] at h
          cases h
          simpa using Nat.add_le_add_right hle 1
        · rw [if_neg hb] at h
          cases h
          exact Nat.le_succ_of_le hle
  · intro eng toks l fin hloop hnt
    have hlen : l.length = toks.length * 10 := parseLoop_length_eq hloop hnt
    have hres : parseTokensM eng toks = .ok (l ++ [limitStep l.length fin]) := by
      unfold parseTokensM
      rw [hloop]
      dsimp only
      rw [if_pos (by rw [hlen])]
    have hone : countLimit (l ++ [limitStep l.length fin]) = 1 := by
      unfold countLimit
      rw [List.filter_append]
      have h0 : countLimit l = 0 := hcl eng _ _ _ _ hloop
      unfold countLimit at h0
      rw [List.length_eq_zero] at h0
      rw [h0]
      simp [limitStep]
    refine ⟨hres, rfl, ?_⟩
    rw [hres]
    show Except.ok (countLimit (l ++ [limitStep l.length fin])) = Except.ok 1
    rw [hone]
  · intro eng toks l fin s hloop _ _ hlt
    have hres : parseTokensM eng toks = .ok l := by
      unfold parseTokensM
      rw [hloop]
      dsimp only
      rw [if_neg (Nat.not_le.mpr hlt)]
    refine ⟨hres, ?_⟩
    rw [hres]
    show Except.ok (countLimit l) = Except.ok 0
    rw [hcl eng _ _ _ _ hloop]

/-- Witness for C8: the missing-GOTO engine loops for the full bound on
input `a` (2 tokens, bound 20) and its trace ends in exactly one synthetic
step-limit step, while the `S → a` engine accepts `a` after 3 steps with no
synthetic step. -/
theorem c8_step_bound_witness :
    (parseTokensM engMissingGoto (pyTokenize "a")).map countLimit = .ok 1
    ∧ (parseTokensM engSa (pyTokenize "a")).map countLimit = .ok 0 := by
  constructor
  · exact (c8_step_bound.2.2.1 engMissingGoto (pyTokenize "a") _ _ rfl (by decide)).2.2
  · exact (c8_step_bound.2.2.2 engSa (pyTokenize "a") _ _ _ rfl rfl (by decide) (by decide)).2

/-- Any step of the loop output whose explanation is `no_action` carries the
error action built in that branch. -/
theorem parseLoop_noAction_action {eng : ParserEngine} :
    ∀ {fuel : Nat} {ps : ParseState} {l : List ParsingStep} {fin : ParseState},
    parseLoop eng ps fuel = .ok (l, fin) →
    ∀ s ∈ l, s.explanation = .noAction → s.action = mkParsingAction .error none := by
  intro fuel
  induction fuel with
  | zero =>
      intro ps l fin h s hs hx
      unfold parseLoop at h
      cases h
      simp at hs
  | succ n ih =>
      intro ps l fin h s hs hx
      unfold parseLoop at h
      cases hexec : executeStep eng ps with
      | error e => rw [hexec] at h; cases h
      | ok pr =>
          obtain ⟨step, psM⟩ := pr
          rw [hexec] at h
          dsimp only at h
          by_cases hterm : isTerminalStep step = true
          · rw [if_pos hterm] at h
            cases h
            simp at hs
            subst hs
            exact (executeStep_noAction hexec hx).2.2.2.2.2.2
          · rw [if_neg hterm] at h
            cases hupd : updateParseState eng psM step with
            | error e => rw [hupd] at h; cases h
            | ok ps1 =>
                rw [hupd] at h
                dsimp only at h
                cases hrec : parseLoop eng ps1 n with
                | error e => rw [hrec] at h; cases h
                | ok pr2 =>
                    obtain ⟨rest, fin2⟩ := pr2
                    rw [hrec] at h
                    dsimp only at h
                    cases h
                    rcases List.mem_cons.mp hs with hs1 | hs2
                    · subst hs1
                      exact (executeStep_noAction hexec hx).2.2.2.2.2.2
                    · exact ih hrec s hs2 hx

/-- Claim C10 (amended) — an undefined-ACTION error step is atomic: it
records the pre-step stack, cursor and current token, carries an error
action, creates no AST node, and leaves the parser state exactly as it was;
and it is terminal up to the step-limit corner: no step follows it in the
trace, except that an error step landing exactly on the 10·|tokens| bound is
followed by the one synthetic step-limit step. -/
theorem c10_error_step_atomic :
    (∀ (eng : ParserEngine) (ps : ParseState) (step : ParsingStep) (ps2 : ParseState),
       executeStep eng ps = .ok (step, ps2) → step.explanation = .noAction →
       ps2 = ps ∧ step.ast_nodes = [] ∧ step.stack = ps.stack
         ∧ step.input_pointer = ps.input_pointer
         ∧ step.current_token = ps.input_tokens.get? ps.input_pointer
         ∧ step.action = mkParsingAction .error none)
    ∧ (∀ (eng : ParserEngine) (toks : List String) (steps : List ParsingStep)
       (i : Nat) (s : ParsingStep),
       parseTokensM eng toks = .ok steps → steps.get? i = some s →
       s.explanation = .noAction →
       i + 1 = steps.length ∨
         (i + 2 = steps.length
           ∧ (steps.get? (i + 1)).map (fun t => t.explanation) = some .stepLimit
           ∧ steps.length = toks.length * 10 + 1)) := by
  constructor
  · intro eng ps step ps2 h hx
    have hc := executeStep_noAction h hx
    exact ⟨hc.1, hc.2.1, hc.2.2.1, hc.2.2.2.1, hc.2.2.2.2.1, hc.2.2.2.2.2.2⟩
  · intro eng toks steps i s h hget hx
    unfold parseTokensM at h
    cases hloop : parseLoop eng (initState toks) (toks.length * 10) with
    | error e => rw [hloop] at h; cases h
    | ok pr =>
        obtain ⟨l, fin⟩ := pr
        rw [hloop] at h
        dsimp only at h
        by_cases hb : toks.length * 10 ≤ l.length
        · rw [if_pos hb] at h
          cases h
          have hlen : l.length = toks.length * 10 :=
            Nat.le_antisymm (parseLoop_length_le hloop) hb
          by_cases hi : i < l.length
          · have hgetl : l.get? i = some s := by
              rw [List.get?_append hi] at hget
              exact hget
            have hterm : isTerminalStep s = true := by
              unfold isTerminalStep
              rw [parseLoop_noAction_action hloop s (List.get?_mem hgetl) hx]
              rfl
            have hlast := parseLoop_terminal_last hloop i s hgetl hterm
            right
            refine ⟨by simp [← hlast], ?_, by simp [hlen]⟩
            rw [List.get?_append_right (by omega)]
            have hi1 : i + 1 - l.length = 0 := by omega
            rw [hi1]
            rfl
          · exfalso
            rw [List.get?_append_right (Nat.le_of_not_lt hi)] at hget
            cases hd : i - l.length with
            | zero =>
                rw [hd] at hget
                simp at hget
                rw [← hget] at hx
                cases hx
            | succ k =>
                rw [hd] at hget
                simp at hget
        · rw [if_neg hb] at h
          cases h
          have hterm : isTerminalStep s = true := by
            unfold isTerminalStep
            rw [parseLoop_noAction_action hloop s (List.get?_mem hget) hx]
            rfl
          exact Or.inl (parseLoop_terminal_last hloop i s hget hterm)

/-- Witness for C10: the unknown-token parse of `engSa` ends at its
`no_action` error step; the error branch of `executeStep` leaves the state
untouched. -/
theorem c10_error_step_atomic_witness :
    (stepBadW.ast_nodes = [] ∧ stepBadW.stack = psBad.stack)
    ∧ (0 + 1 = stepsBad.length ∨
        (0 + 2 = stepsBad.length
          ∧ (stepsBad.get? (0 + 1)).map (fun t => t.explanation) = some .stepLimit
          ∧ stepsBad.length = (pyTokenize "b").length * 10 + 1)) := by
  constructor
  · have h := c10_error_step_atomic.1 engSa psBad stepBadW psBad rfl rfl
    exact ⟨h.2.1, h.2.2.1⟩
  · exact c10_error_step_atomic.2 engSa (pyTokenize "b") stepsBad 0 _ rfl rfl rfl

/-- Counterexample for C10 as stated: with the 20-state chain table the
`no_action` error step lands exactly on the step bound (index 19 of 21), and
one more step — the synthetic step-limit step — is emitted after it. -/
theorem c10_error_step_atomic_cx :
    (stepsChain.get? 19).map (fun s => (s.explanation, s.action.action_type)) =
      some (.noAction, ActionTypeE.error.value)
    ∧ (stepsChain.get? 20).map (fun s => s.explanation) = some .stepLimit
    ∧ stepsChain.length = 21
    ∧ 19 + 1 ≠ stepsChain.length := by
  decide

/-- Length of Python's guarded pop loop. -/
theorem popLoop_length {α : Type} : ∀ (n : Nat) (l : List α),
    (popLoop l n).length = l.length - n := by
  intro n
  induction n with
  | zero => intro l; rfl
  | succ m ih =>
      intro l
      cases l with
      | nil => simp [popLoop]
      | cons a t =>
          unfold popLoop
          rw [if_neg (by simp)]
          rw [ih]
          simp

/-- Claim C7 (amended) — the trace law of `_update_parse_state`: a recorded
shift pushes exactly one entry and advances the cursor by one; a recorded
reduce by a production with k rhs symbols, provided the stack holds at least
k entries and the GOTO lookup after the pops is defined, first pops the k
entries and then pushes one (net stack change 1 − k) with the cursor
unchanged. -/
theorem c7_trace_law :
    (∀ (eng : ParserEngine) (ps : ParseState) (step : ParsingStep) (s : Nat) (tok : String),
       step.action.action_type = ActionTypeE.shift.value →
       step.action.target = some s → step.current_token = some tok →
       (updateParseState eng ps step).map (fun q => (q.stack, q.input_pointer)) =
         .ok (ps.stack ++ [(some s, tok)], ps.input_pointer + 1))
    ∧ (∀ (eng : ParserEngine) (ps : ParseState) (step : ParsingStep) (p : Nat)
       (production : Production) (s2 : Nat),
       step.action.action_type = ActionTypeE.reduce.value →
       step.action.target = some p →
       eng.grammar.productions.get? p = some production →
       production.rhs.length ≤ ps.stack.length →
       getGoto eng.table (topState (popLoop ps.stack production.rhs.length))
         production.lhs.name = some s2 →
       (updateParseState eng ps step).map (fun q => (q.stack, q.input_pointer)) =
         .ok (popLoop ps.stack production.rhs.length ++ [(some s2, production.lhs.name)],
              ps.input_pointer)
       ∧ (updateParseState eng ps step).map (fun q => q.stack.length + production.rhs.length) =
           .ok (ps.stack.length + 1)) := by
  constructor
  · intro eng ps step s tok h1 h2 h3
    unfold updateParseState
    rw [if_pos (show (step.action.action_type == ActionTypeE.shift.value) = true by
          rw [h1]; exact beq_self_eq_true _)]
    rw [h3]
    dsimp only
    rw [h2]
    rfl
  · intro eng ps step p production s2 h1 h2 hp hk hg
    unfold updateParseState
    rw [if_neg (show ¬ ((step.action.action_type == ActionTypeE.shift.value) = true) by
          rw [h1]; decide)]
    rw [if_pos (show (step.action.action_type == ActionTypeE.reduce.value) = true by
          rw [h1]; exact beq_self_eq_true _)]
    rw [h2]
    dsimp only
    rw [hp]
    dsimp only
    rw [hg]
    dsimp only
    constructor
    · rfl
    · show Except.ok ((popLoop ps.stack production.rhs.length
          ++ [(some s2, production.lhs.name)]).length + production.rhs.length) = _
      rw [List.length_append, popLoop_length]
      have := hk
      congr 1
      simp
      omega

/-- Witness for C7: on the `S → a` engine, a shift pushes one entry and
advances the cursor, and the reduce by `S → a` (k = 1) pops one entry and
pushes one. -/
theorem c7_trace_law_witness :
    (updateParseState engSa (initState ["a", dollar]) stepShiftW).map
        (fun q => (q.stack, q.input_pointer)) = .ok ([(some 0, ""), (some 2, "a")], 1)
    ∧ (updateParseState engSa psMid stepReduceW).map
        (fun q => q.stack.length + 1) = .ok (2 + 1) := by
  constructor
  · exact c7_trace_law.1 engSa (initState ["a", dollar]) stepShiftW 2 "a" rfl rfl rfl
  · exact (c7_trace_law.2 engSa psMid stepReduceW 1 ⟨symS, [symTa]⟩ 1
      rfl rfl rfl (by decide) rfl).2

/-- Counterexample for C7 as stated: in the missing-GOTO parse, step 0 is a
reduce by the ε production (k = 0) on a conflict-free table, yet the next
recorded stack has the same size — the net change is 0, not 1 − 0 = 1. -/
theorem c7_trace_law_cx :
    (stepsMissingGoto.get? 0).map
        (fun s => (s.action.action_type, s.action.target, s.stack.length)) =
      some (ActionTypeE.reduce.value, some 1, 1)
    ∧ (engMissingGoto.grammar.productions.get? 1).map (fun q => q.rhs.length) = some 0
    ∧ hasConflicts tblMissingGoto = false
    ∧ (stepsMissingGoto.get? 1).map (fun s => s.stack.length) ≠ some (1 + 1 - 0) := by
  decide

/-- Claim C1 — evaluation at the failing input: on a conflict-free table,
step 0 reduces from a stack whose post-pop top state has no GOTO entry for
the production's lhs `B`, yet the parse *continues*: step 1 is another
reduce, and the trace ends with the step-limit error, never a
`parse.missing_goto` error (no such error kind exists in the engine). -/
theorem c1_missing_goto_continues :
    getGoto tblMissingGoto (some 0) "B" = none
    ∧ (stepsMissingGoto.get? 0).map (fun s => (s.action.action_type, s.action.target)) =
        some (ActionTypeE.reduce.value, some 1)
    ∧ (stepsMissingGoto.get? 1).map (fun s => s.action.action_type) =
        some ActionTypeE.reduce.value
    ∧ (stepsMissingGoto.getLast?).map (fun s => s.explanation) = some .stepLimit
    ∧ hasConflicts tblMissingGoto = false := by
  decide

/-- Claim C2 — the result flag of `validate_input` is *always* false: the
final comparison tests the pydantic-stored value string against the
`ActionType.ACCEPT` enum member (missing `.value`), which a Python string
never equals; in particular even the accepting parse of `a` by the `S → a`
engine gets `valid = false` and a null AST. -/
theorem c2_validate_flag :
    (∀ (eng : ParserEngine) (input : String) (r : ValidationResult),
       validateInput eng input = some r → r.valid = false)
    ∧ (stepsSa.getLast?).map (fun s => s.action.action_type) = some ActionTypeE.accept.value
    ∧ (validateInput engSa "a").map (fun r => r.valid) = some false
    ∧ (validateInput engSa "a").map (fun r => r.ast.isSome) = some false := by
  refine ⟨?_, by decide, by decide, by decide⟩
  intro eng input r h
  unfold validateInput at h
  cases hp : parseTokensM eng (pyTokenize input) with
  | error e =>
      rw [hp] at h
      dsimp only at h
      split at h
      · cases h
      · cases h
        rfl
  | ok steps =>
      rw [hp] at h
      dsimp only at h
      cases hl : steps.getLast? with
      | none =>
          rw [hl] at h
          dsimp only at h
          cases h
          rfl
      | some last =>
          rw [hl] at h
          dsimp only [pyEqStrEnum] at h
          rw [if_neg (by decide : ¬ (false = true))] at h
          cases h
          rfl

/-- Witness for C2: a non-accepting input also yields `valid = false`. -/
theorem c2_validate_flag_witness :
    (validateInput engSa "ab").map (fun r => r.valid) = some false := by
  cases h : validateInput engSa "ab" with
  | some r => simp [c2_validate_flag.1 engSa "ab" r h]
  | none => exact absurd h (by decide)

/-- Claim C3 — evaluation at the failing input: for the user grammar
`S → S' a`, `S' → b` with start `S`, the augmentation names the new start by
appending an apostrophe with no freshness check, so it collides with the
user's own non-terminal `S'`: production 2 also has the augmented symbol as
its lhs, and the augmented symbol occurs inside the user productions. -/
theorem c3_augmented_not_fresh :
    gClash.start_symbol = symSAug
    ∧ gClash.productions.get? 0 = some ⟨symSAug, [symS]⟩
    ∧ (gClash.productions.get? 2).map (fun q => q.lhs) = some gClash.start_symbol
    ∧ (gClash.productions.filter (fun q => q.lhs == gClash.start_symbol)).length = 2
    ∧ ((gClash.productions.drop 1).any
        (fun q => q.lhs == gClash.start_symbol || q.rhs.contains gClash.start_symbol)) =
        true := by
  decide

/-- Claim C4 — evaluation at the failing input: on the grammar
`A → B2 | D; D → ε; B2 → A x` (where `A` derives ε only indirectly through
`D`), the source computes `FIRST((A,)) = {ε}`, losing the terminal `x`,
while the spec's rules derive `x ∈ FIRST((A,))` (via `A → B2`, `B2 → A x`,
and `A` deriving ε).  The cycle guard's ∅-on-re-entry under-approximates
when ε-derivation is not via a direct ε production. -/
theorem c4_first_misses_terminal :
    firstBugResult = [epsSymbol]
    ∧ firstBugResult.contains symX4 = false
    ∧ SpecFirstSeq gFirstBug [symA4] symX4 := by
  refine ⟨by decide, by decide, ?_⟩
  have hDeps : DerivesEps gFirstBug symA4 := by
    apply DerivesEps.viaProduction symA4 ⟨symA4, [symD4]⟩ (by decide) rfl
    intro y hy
    have hy2 : y = symD4 := by simpa using hy
    subst hy2
    apply DerivesEps.viaProduction symD4 ⟨symD4, []⟩ (by decide) rfl
    intro z hz
    simp at hz
  apply SpecFirstSeq.headNonTerminal symA4 [] ⟨symA4, [symB4]⟩ symX4 rfl (by decide) rfl
  apply SpecFirstSeq.headNonTerminal symB4 [] ⟨symB4, [symA4, symX4]⟩ symX4 rfl (by decide) rfl
  apply SpecFirstSeq.skipEps symA4 [symX4] symX4 hDeps
  exact SpecFirstSeq.headTerminal symX4 [] rfl

/-- Claim C5 — evaluation at the failing input: for the colliding grammar
`S → c S' d`, `S' → e` (the user names a non-terminal `S'`), the repo's
closure/goto reach — from the initial item `[S' → ·S, $]`, via the shift on
`c` and the goto on `S` — a state holding the complete augmented item
`[S' → S·, d]`; table synthesis on those states installs accept at column
`d` ≠ `$`, with no conflict recorded. -/
theorem c5_accept_outside_dollar :
    (closureLoop gCollide fs0 [⟨pAugCol, 0, dollarSym⟩] 10 10).1 = state0Col
    ∧ (gotoFn gCollide fs0 state0Col symTc 10 10).1 = some stateCCol
    ∧ (gotoFn gCollide fs0 stateCCol symS 10 10).1 = some stateDCol
    ∧ ((tblCol.action_table.filter
        (fun kv => kv.2.action_type == ActionTypeE.accept.value)).map (fun kv => kv.1)) =
        [(2, "d")]
    ∧ tblCol.conflicts = []
    ∧ "d" ≠ dollar := by
  decide

/-- Claim C9 — evaluation at the failing input: the successful parse of `a`
by the conflict-free `S → a` engine exports an AST whose shifted terminal
node `node_0` has a null parent although it is a child of the root `node_1`:
`get_ast` collects the creation-time snapshots from the steps, and the
parent links set by the reduce live only in the engine's internal node map. -/
theorem c9_ast_law_violated :
    (stepsSa.getLast?).map (fun s => s.action.action_type) = some ActionTypeE.accept.value
    ∧ tblSa.conflicts = []
    ∧ astSa.root = some "node_1"
    ∧ ((astSa.nodes.find? (fun kv => kv.1 == "node_0")).map (fun kv => kv.2.parent)) =
        some none
    ∧ ((astSa.nodes.find? (fun kv => kv.1 == "node_1")).map (fun kv => kv.2.children)) =
        some ["node_0"]
    ∧ ("node_0" : String) ≠ "node_1" := by
  decide

end LRViz
